import Mathlib

/-!
Verification of the lot data model, the three sorting comparators, the
synthetic buy-lot identifier assignment and the CSV (de)serialization of
`lots.py` from the wash-sale-tracker repository, as a shallow embedding.

Modelling conventions:
* Python `datetime.date` is modelled by `PyDate` (year/month/day together
  with the Gregorian validity predicate `PyDate.valid`; every value the
  Python library can construct is valid).  Date subtraction `.days` is the
  difference of proleptic-Gregorian day ordinals (`PyDate.toOrdinal`), and
  `strftime('%m/%d/%Y')` / `strptime(value, '%m/%d/%Y')` are modelled by
  `formatDate` / `pyStrptimeDate`.
* Python's unbounded integers are `Int`; `str`/`int` on integers are
  `pyStrInt` / `pyIntOfString` (the canonical decimal forms; exotic inputs
  accepted by Python's `int`, such as surrounding whitespace or a leading
  `+`, are not modelled and are exercised by no claim).
* The `csv` module's writer/reader pair is inverse at the level of
  rows-of-cells, so `write_csv_data` is modelled as producing the list of
  rows it hands to `csv.DictWriter`, and `create_from_csv_data` as
  consuming the list of rows `csv.DictReader` yields.  A `DictReader`
  skips blank rows (hence the filter), pads a short row with falsy cells
  (hence `List.getD _ _ ""`), and a raised exception is an `Except.error`.
-/

namespace WashSale

/-- Models `calendar`-style leap-year computation used by `datetime`. -/
def isLeapYear (y : Nat) : Bool :=
  decide (y % 4 = 0 ∧ (y % 100 ≠ 0 ∨ y % 400 = 0))

/-- Number of days of month `m` (1-based) in year `y`; `0` off-range. -/
def daysInMonth (y m : Nat) : Nat :=
  if m = 1 then 31 else if m = 2 then (if isLeapYear y then 29 else 28)
  else if m = 3 then 31 else if m = 4 then 30 else if m = 5 then 31
  else if m = 6 then 30 else if m = 7 then 31 else if m = 8 then 31
  else if m = 9 then 30 else if m = 10 then 31 else if m = 11 then 30
  else if m = 12 then 31 else 0

/-- Days of year `y` that precede the first day of month `m` (cumulative
month table of the proleptic Gregorian calendar). -/
def daysBeforeMonth (y m : Nat) : Nat :=
  let feb : Nat := if isLeapYear y then 29 else 28
  if m ≤ 1 then 0
  else if m = 2 then 31
  else if m = 3 then 31 + feb
  else if m = 4 then 62 + feb
  else if m = 5 then 92 + feb
  else if m = 6 then 123 + feb
  else if m = 7 then 153 + feb
  else if m = 8 then 184 + feb
  else if m = 9 then 215 + feb
  else if m = 10 then 245 + feb
  else if m = 11 then 276 + feb
  else if m = 12 then 306 + feb
  else 337 + feb

/-- Number of days in year `y`. -/
def daysInYear (y : Nat) : Nat := if isLeapYear y then 366 else 365

/-- Days before January 1 of year `y` in the proleptic Gregorian calendar
(the count `datetime`'s `_days_before_year` computes). -/
def daysBeforeYear (y : Nat) : Nat :=
  365 * (y - 1) + (y - 1) / 4 + (y - 1) / 400 - (y - 1) / 100

/-- Models `datetime.date`: a year/month/day triple. -/
structure PyDate where
  year : Nat
  month : Nat
  day : Nat
deriving DecidableEq

/-- The values `datetime.date` can hold: year 1..9999, month 1..12, day
within the month. -/
def PyDate.valid (d : PyDate) : Prop :=
  1 ≤ d.year ∧ d.year ≤ 9999 ∧ 1 ≤ d.month ∧ d.month ≤ 12 ∧
  1 ≤ d.day ∧ d.day ≤ daysInMonth d.year d.month

instance PyDate.instDecidableValid (d : PyDate) : Decidable d.valid := by
  unfold PyDate.valid; infer_instance

/-- The proleptic-Gregorian day ordinal of a date (`date.toordinal`). -/
def PyDate.toOrdinal (d : PyDate) : Nat :=
  daysBeforeYear d.year + daysBeforeMonth d.year d.month + d.day

/-- Models `(a - b).days` on two `datetime.date` values. -/
def dateSubDays (a b : PyDate) : Int :=
  (a.toOrdinal : Int) - (b.toOrdinal : Int)

/-! ### Calendar arithmetic lemmas (towards injectivity of `toOrdinal`) -/

theorem daysBeforeMonth_add_day_le {y m : Nat} (h1 : 1 ≤ m) (h12 : m ≤ 12)
    {d : Nat} (hd : d ≤ daysInMonth y m) :
    daysBeforeMonth y m + d ≤ daysBeforeMonth y (m + 1) := by
  interval_cases m <;>
    cases h : isLeapYear y <;>
      simp [daysBeforeMonth, daysInMonth, h] at hd ⊢ <;> omega

theorem daysBeforeMonth_mono {y m m' : Nat} (h2 : 2 ≤ m) (hmm : m ≤ m')
    (h13 : m' ≤ 13) : daysBeforeMonth y m ≤ daysBeforeMonth y m' := by
  have hm13 : m ≤ 13 := le_trans hmm h13
  interval_cases m <;> interval_cases m' <;>
    cases h : isLeapYear y <;> simp [daysBeforeMonth, h]

theorem daysBeforeMonth_13 (y : Nat) : daysBeforeMonth y 13 = daysInYear y := by
  cases h : isLeapYear y <;> simp [daysBeforeMonth, daysInYear, h]

theorem day_offset_bounds {y m d : Nat} (h1 : 1 ≤ m) (h12 : m ≤ 12)
    (hd1 : 1 ≤ d) (hd : d ≤ daysInMonth y m) :
    1 ≤ daysBeforeMonth y m + d ∧ daysBeforeMonth y m + d ≤ daysInYear y := by
  constructor
  · omega
  · have h := daysBeforeMonth_add_day_le h1 h12 hd
    have h' : daysBeforeMonth y (m + 1) ≤ daysBeforeMonth y 13 := by
      rcases Nat.lt_or_ge m 2 with hm | hm
      · have hm1 : m = 1 := by omega
        subst hm1
        have : daysBeforeMonth y 2 ≤ daysBeforeMonth y 13 :=
          daysBeforeMonth_mono (by omega) (by omega) (by omega)
        simpa using this
      · exact daysBeforeMonth_mono (by omega) (by omega) (by omega)
    rw [daysBeforeMonth_13] at h'
    omega

theorem daysBeforeYear_succ {y : Nat} (hy : 1 ≤ y) :
    daysBeforeYear (y + 1) = daysBeforeYear y + daysInYear y := by
  unfold daysBeforeYear daysInYear isLeapYear
  rcases eq_or_ne (y % 4) 0 with h4 | h4 <;>
    rcases eq_or_ne (y % 100) 0 with h100 | h100 <;>
      rcases eq_or_ne (y % 400) 0 with h400 | h400 <;>
        simp [h4, h100, h400] <;> omega

theorem daysBeforeYear_le {y y' : Nat} (hy : 1 ≤ y) (hlt : y < y') :
    daysBeforeYear y + daysInYear y ≤ daysBeforeYear y' := by
  induction y' with
  | zero => omega
  | succ k ih =>
    rcases Nat.lt_or_ge y k with hk | hk
    · have : daysBeforeYear k ≤ daysBeforeYear (k + 1) := by
        rw [daysBeforeYear_succ (by omega)]; omega
      exact le_trans (ih hk) this
    · have : y = k := by omega
      subst this
      rw [daysBeforeYear_succ hy]

theorem toOrdinal_lt_of_year_lt {d1 d2 : PyDate} (h1 : d1.valid) (h2 : d2.valid)
    (hy : d1.year < d2.year) : d1.toOrdinal < d2.toOrdinal := by
  obtain ⟨a1, a2, a3, a4, a5, a6⟩ := h1
  obtain ⟨b1, b2, b3, b4, b5, b6⟩ := h2
  have hb1 := day_offset_bounds a3 a4 a5 a6
  have hb2 := day_offset_bounds b3 b4 b5 b6
  have hyy := daysBeforeYear_le a1 hy
  unfold PyDate.toOrdinal
  omega

theorem toOrdinal_lt_of_month_lt {d1 d2 : PyDate} (h1 : d1.valid) (h2 : d2.valid)
    (hy : d1.year = d2.year) (hm : d1.month < d2.month) :
    d1.toOrdinal < d2.toOrdinal := by
  obtain ⟨a1, a2, a3, a4, a5, a6⟩ := h1
  obtain ⟨b1, b2, b3, b4, b5, b6⟩ := h2
  have hstep : daysBeforeMonth d1.year d1.month + d1.day ≤
      daysBeforeMonth d1.year (d1.month + 1) :=
    daysBeforeMonth_add_day_le a3 a4 a6
  have hmono : daysBeforeMonth d1.year (d1.month + 1) ≤
      daysBeforeMonth d1.year d2.month := by
    exact daysBeforeMonth_mono (by omega) (by omega) (by omega)
  unfold PyDate.toOrdinal
  rw [← hy] at *
  omega

theorem toOrdinal_inj {d1 d2 : PyDate} (h1 : d1.valid) (h2 : d2.valid)
    (h : d1.toOrdinal = d2.toOrdinal) : d1 = d2 := by
  rcases lt_trichotomy d1.year d2.year with hy | hy | hy
  · exact absurd h (Nat.ne_of_lt (toOrdinal_lt_of_year_lt h1 h2 hy))
  · rcases lt_trichotomy d1.month d2.month with hm | hm | hm
    · exact absurd h (Nat.ne_of_lt (toOrdinal_lt_of_month_lt h1 h2 hy hm))
    · have hd : d1.day = d2.day := by
        have := h
        unfold PyDate.toOrdinal at this
        rw [hy, hm] at this
        omega
      cases d1; cases d2
      simp_all
    · exact absurd h (Nat.ne_of_gt (toOrdinal_lt_of_month_lt h2 h1 hy.symm hm))
  · exact absurd h (Nat.ne_of_gt (toOrdinal_lt_of_year_lt h2 h1 hy))

/-! ### Decimal strings: models of Python `str`/`int` on integers -/

/-- Numeric value of a decimal digit character. -/
def digitVal (c : Char) : Nat := c.toNat - 48

/-- Models `int(s)` on a string of decimal digits: fails on the empty
string or on any non-digit character. -/
def parseDigits (l : List Char) : Option Nat :=
  if l ≠ [] ∧ l.all Char.isDigit then
    some (l.foldl (fun a c => 10 * a + digitVal c) 0)
  else none

/-- Decimal digits of `n`, least significant first, by fuel-bounded
division (so that the kernel can evaluate it); agrees with `Nat.digits 10`
once the fuel covers `n`. -/
def natDigitsRev (fuel n : Nat) : List Nat :=
  match fuel with
  | 0 => []
  | f + 1 => if n = 0 then [] else n % 10 :: natDigitsRev f (n / 10)

theorem natDigitsRev_eq {fuel n : Nat} (h : n ≤ fuel) :
    natDigitsRev fuel n = Nat.digits 10 n := by
  induction fuel generalizing n with
  | zero =>
    have : n = 0 := by omega
    subst this
    simp [natDigitsRev]
  | succ f ih =>
    unfold natDigitsRev
    rcases eq_or_ne n 0 with h0 | h0
    · subst h0; simp [natDigitsRev]
    · rw [if_neg h0, Nat.digits_def' (by norm_num : 1 < 10) (Nat.pos_of_ne_zero h0)]
      congr 1
      exact ih (by
        have := Nat.div_lt_self (Nat.pos_of_ne_zero h0) (by norm_num : 1 < 10)
        omega)

/-- Decimal digit characters of a positive number, most significant first. -/
def natToChars (n : Nat) : List Char :=
  ((natDigitsRev n n).map Nat.digitChar).reverse

theorem natToChars_eq (n : Nat) :
    natToChars n = ((Nat.digits 10 n).map Nat.digitChar).reverse := by
  unfold natToChars
  rw [natDigitsRev_eq le_rfl]

/-- Models `str(n)` for a natural number. -/
def natStr (n : Nat) : String := if n = 0 then "0" else ⟨natToChars n⟩

/-- Models `str(n)` for a Python integer. -/
def pyStrInt (n : Int) : String :=
  if n < 0 then "-" ++ natStr n.natAbs else natStr n.toNat

/-- Models `int(s)` for a Python integer in canonical decimal form. -/
def pyIntOfString (s : String) : Option Int :=
  if s.data.head? = some '-' then
    (parseDigits s.data.tail).map (fun k => -(k : Int))
  else
    (parseDigits s.data).map (fun k => (k : Int))

theorem digitChar_isDigit {d : Nat} (h : d < 10) :
    (Nat.digitChar d).isDigit = true ∧ digitVal (Nat.digitChar d) = d := by
  revert h
  revert d
  decide

theorem natToChars_all_digit (n : Nat) :
    ∀ c ∈ natToChars n, c.isDigit = true := by
  intro c hc
  rw [natToChars_eq] at hc
  rw [List.mem_reverse, List.mem_map] at hc
  obtain ⟨d, hd, rfl⟩ := hc
  exact (digitChar_isDigit (Nat.digits_lt_base (by norm_num) hd)).1

theorem natToChars_ne_nil {n : Nat} (h : n ≠ 0) : natToChars n ≠ [] := by
  rw [natToChars_eq]
  simp [Nat.digits_ne_nil_iff_ne_zero.mpr h]

theorem foldr_digitChars (L : List Nat) (hL : ∀ d ∈ L, d < 10) :
    L.foldr (fun d a => 10 * a + digitVal (Nat.digitChar d)) 0 =
      Nat.ofDigits 10 L := by
  induction L with
  | nil => simp [Nat.ofDigits]
  | cons d L ih =>
    have hd : d < 10 := hL d (by simp)
    have ih' := ih (fun x hx => hL x (by simp [hx]))
    simp only [List.foldr_cons, ih', Nat.ofDigits_cons,
      (digitChar_isDigit hd).2]
    omega

theorem parseDigits_natToChars {n : Nat} (h : n ≠ 0) :
    parseDigits (natToChars n) = some n := by
  unfold parseDigits
  rw [if_pos ⟨natToChars_ne_nil h, List.all_eq_true.mpr (natToChars_all_digit n)⟩]
  congr 1
  rw [natToChars_eq]
  rw [List.foldl_reverse]
  rw [List.foldr_map]
  rw [foldr_digitChars _ (fun d hd => Nat.digits_lt_base (by norm_num) hd)]
  exact Nat.ofDigits_digits 10 n

theorem parseDigits_natStr (n : Nat) : parseDigits (natStr n).data = some n := by
  unfold natStr
  rcases eq_or_ne n 0 with h | h
  · subst h; decide
  · rw [if_neg h]
    exact parseDigits_natToChars h

theorem natStr_ne_nil (n : Nat) : (natStr n).data ≠ [] := by
  intro h
  have := parseDigits_natStr n
  rw [h] at this
  simp [parseDigits] at this

theorem natStr_inj {a b : Nat} (h : natStr a = natStr b) : a = b := by
  have ha := parseDigits_natStr a
  have hb := parseDigits_natStr b
  rw [h] at ha
  rw [hb] at ha
  exact (Option.some_inj.mp ha).symm

theorem natStr_all_digit (n : Nat) : ∀ c ∈ (natStr n).data, c.isDigit = true := by
  unfold natStr
  rcases eq_or_ne n 0 with h | h
  · subst h; intro c hc; simp at hc; subst hc; decide
  · rw [if_neg h]; exact natToChars_all_digit n

theorem natStr_head_ne_minus (n : Nat) : (natStr n).data.head? ≠ some '-' := by
  intro hc
  rcases hd : (natStr n).data with _ | ⟨c, rest⟩
  · exact natStr_ne_nil n hd
  · rw [hd] at hc
    simp at hc
    have := natStr_all_digit n c (by rw [hd]; simp)
    rw [hc] at this
    simp [Char.isDigit] at this

theorem pyInt_pyStr (n : Int) (h : n ≠ 0) : pyIntOfString (pyStrInt n) = some n := by
  rcases lt_trichotomy n 0 with hn | hn | hn
  · have e : pyStrInt n = "-" ++ natStr n.natAbs := by
      simp [pyStrInt, hn]
    have hdata : ("-" ++ natStr n.natAbs).data = '-' :: (natStr n.natAbs).data := by
      rw [String.data_append]; rfl
    rw [e]
    unfold pyIntOfString
    rw [hdata]
    simp only [List.head?_cons, List.tail_cons, if_pos rfl, parseDigits_natStr]
    show some (-(n.natAbs : Int)) = some n
    congr 1
    omega
  · exact absurd hn h
  · have e : pyStrInt n = natStr n.toNat := by
      simp [pyStrInt]
      omega
    rw [e]
    unfold pyIntOfString
    rw [if_neg (natStr_head_ne_minus n.toNat), parseDigits_natStr]
    show some ((n.toNat : Int)) = some n
    congr 1
    omega

/-! ### Date strings: models of `strftime` / `strptime` with `%m/%d/%Y` -/

/-- Two-digit zero-padded field (`%m`, `%d`). -/
def pad2 (n : Nat) : String := if n < 10 then "0" ++ natStr n else natStr n

/-- Four-digit zero-padded field (`%Y`). -/
def pad4 (n : Nat) : String :=
  if n < 10 then "000" ++ natStr n
  else if n < 100 then "00" ++ natStr n
  else if n < 1000 then "0" ++ natStr n
  else natStr n

/-- Models `value.strftime('%m/%d/%Y')`. -/
def formatDate (d : PyDate) : String :=
  pad2 d.month ++ "/" ++ pad2 d.day ++ "/" ++ pad4 d.year

/-- Split a character list at every `'/'` (always returns one more part
than there are slashes). -/
def splitSlash : List Char → List (List Char)
  | [] => [[]]
  | c :: rest =>
    if c = '/' then [] :: splitSlash rest
    else
      match splitSlash rest with
      | [] => [[c]]
      | h :: t => (c :: h) :: t

/-- Models `datetime.datetime.strptime(value, '%m/%d/%Y').date()`: three
slash-separated decimal fields forming a valid Gregorian date. -/
def pyStrptimeDate (s : String) : Option PyDate :=
  match splitSlash s.data with
  | [ms, ds, ys] =>
    match parseDigits ms, parseDigits ds, parseDigits ys with
    | some m, some d, some y =>
      if 1 ≤ m ∧ m ≤ 12 ∧ 1 ≤ y ∧ y ≤ 9999 ∧ 1 ≤ d ∧ d ≤ daysInMonth y m
      then some ⟨y, m, d⟩ else none
    | _, _, _ => none
  | _ => none

theorem splitSlash_append {a : List Char} (ha : ∀ c ∈ a, c ≠ '/')
    (r : List Char) : splitSlash (a ++ '/' :: r) = a :: splitSlash r := by
  induction a with
  | nil => simp [splitSlash]
  | cons c a ih =>
    have hc : c ≠ '/' := ha c (by simp)
    have ih' := ih (fun x hx => ha x (by simp [hx]))
    simp only [List.cons_append, splitSlash, if_neg hc, List.append_eq, ih']

theorem splitSlash_no_slash {a : List Char} (ha : ∀ c ∈ a, c ≠ '/') :
    splitSlash a = [a] := by
  induction a with
  | nil => rfl
  | cons c a ih =>
    have hc : c ≠ '/' := ha c (by simp)
    have ih' := ih (fun x hx => ha x (by simp [hx]))
    simp only [splitSlash, if_neg hc, ih']

theorem isDigit_ne_slash {c : Char} (h : c.isDigit = true) : c ≠ '/' := by
  intro hc
  subst hc
  simp [Char.isDigit] at h

theorem parseDigits_zero_cons {l : List Char} (h : l ≠ []) :
    parseDigits ('0' :: l) = parseDigits l := by
  unfold parseDigits
  by_cases hall : l.all Char.isDigit = true
  · rw [if_pos ⟨by simp, by simp [hall]⟩, if_pos ⟨h, hall⟩]
    have e0 : 10 * 0 + digitVal '0' = 0 := rfl
    simp only [List.foldl_cons, e0]
  · rw [if_neg (fun hc => hall (by simpa using hc.2)),
      if_neg (fun hc => hall hc.2)]

theorem pad2_parse (n : Nat) : parseDigits (pad2 n).data = some n := by
  unfold pad2
  rcases Nat.lt_or_ge n 10 with h | h
  · rw [if_pos h, String.data_append]
    have : ("0" : String).data = ['0'] := rfl
    rw [this]
    rw [List.singleton_append, parseDigits_zero_cons (natStr_ne_nil n)]
    exact parseDigits_natStr n
  · rw [if_neg (by omega)]
    exact parseDigits_natStr n

theorem pad4_parse (n : Nat) : parseDigits (pad4 n).data = some n := by
  unfold pad4
  have hz : ∀ l : List Char, l ≠ [] → parseDigits ('0' :: l) = parseDigits l :=
    fun l hl => parseDigits_zero_cons hl
  rcases Nat.lt_or_ge n 10 with h1 | h1
  · rw [if_pos h1, String.data_append]
    have : ("000" : String).data = ['0', '0', '0'] := rfl
    rw [this]
    have h2 : ('0' :: (natStr n).data) ≠ [] := by simp
    have h3 : ('0' :: '0' :: (natStr n).data) ≠ [] := by simp
    simp only [List.cons_append, List.nil_append]
    rw [hz _ h3, hz _ h2, hz _ (natStr_ne_nil n)]
    exact parseDigits_natStr n
  · rw [if_neg (by omega)]
    rcases Nat.lt_or_ge n 100 with h2 | h2
    · rw [if_pos h2, String.data_append]
      have : ("00" : String).data = ['0', '0'] := rfl
      rw [this]
      have hh : ('0' :: (natStr n).data) ≠ [] := by simp
      simp only [List.cons_append, List.nil_append]
      rw [hz _ hh, hz _ (natStr_ne_nil n)]
      exact parseDigits_natStr n
    · rw [if_neg (by omega)]
      rcases Nat.lt_or_ge n 1000 with h3 | h3
      · rw [if_pos h3, String.data_append]
        have : ("0" : String).data = ['0'] := rfl
        rw [this]
        simp only [List.cons_append, List.nil_append]
        rw [hz _ (natStr_ne_nil n)]
        exact parseDigits_natStr n
      · rw [if_neg (by omega)]
        exact parseDigits_natStr n

theorem pad2_all_digit (n : Nat) : ∀ c ∈ (pad2 n).data, c.isDigit = true := by
  unfold pad2
  intro c hc
  rcases Nat.lt_or_ge n 10 with h | h
  · rw [if_pos h, String.data_append] at hc
    rcases List.mem_append.mp hc with hc | hc
    · have : ("0" : String).data = ['0'] := rfl
      rw [this] at hc
      simp at hc
      subst hc
      decide
    · exact natStr_all_digit n c hc
  · rw [if_neg (by omega)] at hc
    exact natStr_all_digit n c hc

theorem pad4_all_digit (n : Nat) : ∀ c ∈ (pad4 n).data, c.isDigit = true := by
  unfold pad4
  intro c hc
  have hzeros : ∀ s : String, (∀ x ∈ s.data, x = '0') →
      c ∈ (s ++ natStr n).data → c.isDigit = true := by
    intro s hs hmem
    rw [String.data_append] at hmem
    rcases List.mem_append.mp hmem with hm | hm
    · rw [hs c hm]; decide
    · exact natStr_all_digit n c hm
  rcases Nat.lt_or_ge n 10 with h1 | h1
  · rw [if_pos h1] at hc
    exact hzeros "000" (by decide) hc
  · rw [if_neg (by omega)] at hc
    rcases Nat.lt_or_ge n 100 with h2 | h2
    · rw [if_pos h2] at hc
      exact hzeros "00" (by decide) hc
    · rw [if_neg (by omega)] at hc
      rcases Nat.lt_or_ge n 1000 with h3 | h3
      · rw [if_pos h3] at hc
        exact hzeros "0" (by decide) hc
      · rw [if_neg (by omega)] at hc
        exact natStr_all_digit n c hc

theorem pyStrptime_formatDate {d : PyDate} (h : d.valid) :
    pyStrptimeDate (formatDate d) = some d := by
  obtain ⟨h1, h2, h3, h4, h5, h6⟩ := h
  unfold formatDate pyStrptimeDate
  have hm : ∀ c ∈ (pad2 d.month).data, c ≠ '/' :=
    fun c hc => isDigit_ne_slash (pad2_all_digit d.month c hc)
  have hd : ∀ c ∈ (pad2 d.day).data, c ≠ '/' :=
    fun c hc => isDigit_ne_slash (pad2_all_digit d.day c hc)
  have hy : ∀ c ∈ (pad4 d.year).data, c ≠ '/' :=
    fun c hc => isDigit_ne_slash (pad4_all_digit d.year c hc)
  have hdata : (pad2 d.month ++ "/" ++ pad2 d.day ++ "/" ++ pad4 d.year).data =
      (pad2 d.month).data ++ '/' ::
        ((pad2 d.day).data ++ '/' :: (pad4 d.year).data) := by
    simp [String.data_append, List.append_assoc]
  rw [hdata, splitSlash_append hm, splitSlash_append hd, splitSlash_no_slash hy]
  simp only [pad2_parse, pad4_parse]
  rw [if_pos ⟨h3, h4, h1, h2, h5, h6⟩]

/-! ### The `Lot` entity (`lots.py`, class `Lot`) -/

/-- Models class `Lot`: one lot of stock.  `loss_processed` is the
transient flag `__init__` sets to `False`; it is excluded from `__eq__`. -/
structure Lot where
  num_shares : Int
  symbol : String
  description : String
  buy_date : PyDate
  basis : Int
  sell_date : Option PyDate
  proceeds : Int
  adjustment_code : String
  adjustment : Int
  form_position : String
  buy_lot : String
  is_replacement : Bool
  loss_processed : Bool := false
deriving DecidableEq

/-- Models `Lot.is_loss`: `self.sell_date and self.proceeds < self.basis`
(a `date` object is always truthy, `None` is falsy). -/
def Lot.is_loss (l : Lot) : Bool :=
  if l.sell_date.isSome ∧ l.proceeds < l.basis then true else false

/-- Models `Lot.__eq__`: field-by-field over the twelve persisted fields,
`loss_processed` excluded. -/
def Lot.eq (a b : Lot) : Bool :=
  a.num_shares == b.num_shares && a.symbol == b.symbol &&
  a.description == b.description && a.buy_date == b.buy_date &&
  a.basis == b.basis && a.sell_date == b.sell_date &&
  a.proceeds == b.proceeds && a.adjustment_code == b.adjustment_code &&
  a.adjustment == b.adjustment && a.form_position == b.form_position &&
  a.buy_lot == b.buy_lot && a.is_replacement == b.is_replacement

/-- Models `Lot.cmp_by_buy_date`. -/
def Lot.cmp_by_buy_date (a b : Lot) : Int :=
  if a.buy_date ≠ b.buy_date then dateSubDays a.buy_date b.buy_date
  else if a.sell_date ≠ b.sell_date then
    match a.sell_date, b.sell_date with
    | none, _ => 1
    | _, none => -1
    | some x, some y => dateSubDays x y
  else if a.form_position ≠ b.form_position then
    (if a.form_position < b.form_position then -1 else 1)
  else 0

/-- Models `Lot.cmp_by_sell_date`. -/
def Lot.cmp_by_sell_date (a b : Lot) : Int :=
  if a.sell_date ≠ b.sell_date then
    match a.sell_date, b.sell_date with
    | none, _ => 1
    | _, none => -1
    | some x, some y => dateSubDays x y
  else if a.buy_date ≠ b.buy_date then dateSubDays a.buy_date b.buy_date
  else if a.form_position ≠ b.form_position then
    (if a.form_position < b.form_position then -1 else 1)
  else 0

/-- Models `Lot.cmp_by_num_shares`: `a.num_shares - b.num_shares`. -/
def Lot.cmp_by_num_shares (a b : Lot) : Int :=
  a.num_shares - b.num_shares

/-! ### The `Lots` collection (`lots.py`, class `Lots`) -/

/-- Models class `Lots`: the `_lots` list. -/
structure Lots where
  lots : List Lot
deriving DecidableEq

/-- The loop body of `Lots.__init__`: walks the list with counter `i`
(starting at 1), giving each lot whose `buy_lot` is empty the synthetic
identifier `'_{}'.format(i)` and bumping the counter. -/
def assignBuyLots (i : Nat) : List Lot → List Lot
  | [] => []
  | lot :: rest =>
    if lot.buy_lot = "" then
      { lot with buy_lot := "_" ++ natStr i } :: assignBuyLots (i + 1) rest
    else lot :: assignBuyLots i rest

/-- Models `Lots.__init__(lots)`. -/
def Lots.init (ls : List Lot) : Lots := ⟨assignBuyLots 1 ls⟩

/-- Models `Lots.add`: a plain append, no identifier assignment. -/
def Lots.add (L : Lots) (lot : Lot) : Lots := ⟨L.lots ++ [lot]⟩

/-- Models `Lots.size`. -/
def Lots.size (L : Lots) : Nat := L.lots.length

/-- Models `Lots.__eq__`: `retval = retval and this == that` folded over
`zip(self._lots, other._lots)` (extra elements of the longer list are
never inspected). -/
def Lots.eq (a b : Lots) : Bool :=
  (a.lots.zip b.lots).foldl (fun r p => r && Lot.eq p.1 p.2) true

/-- The `Lots.HEADERS` dict, represented as its label row: the CSV header
labels in `Lot.FIELD_NAMES` order. -/
def Lots.HEADERS : List String :=
  ["Num Shares", "Symbol", "Description", "Buy Date", "Basis", "Sell Date",
   "Proceeds", "Adjustment Code", "Adjustment", "Form Position", "Buy Lot",
   "Is Replacement"]

/-- The `Lots.LEGACY_HEADERS` dict as its label row. -/
def Lots.LEGACY_HEADERS : List String :=
  ["Cnt", "Sym", "Desc", "BuyDate", "Basis", "SellDate", "Proceeds",
   "AdjCode", "Adj", "FormPosition", "BuyLot", "IsReplacement"]

/-- The exceptions `create_from_csv_data` can raise: `BadHeadersError`, a
`ValueError` from `int()`/`strptime` (a cell fails conversion; for a
missing buy date the resulting `Lot` is unusable and is modelled as the
same failure), and `StopIteration` from `reader.next()` on empty input. -/
inductive CsvError where
  | badHeaders
  | conversionError
  | stopIteration
deriving DecidableEq

deriving instance DecidableEq for Except

/-- Cell `i` of a row; a cell a short row lacks is the falsy default
(`DictReader` pads with `None`, which every conversion treats as empty). -/
def parseCell (row : List String) (i : Nat) : String := row.getD i ""

/-- Lift a conversion that can raise `ValueError`. -/
def orConvError {α : Type} : Option α → Except CsvError α
  | some a => Except.ok a
  | none => Except.error CsvError.conversionError

/-- Models `convert_to_int` (a truthy string is a non-empty one; its
`int(value)` call can raise). -/
def convert_to_int (s : String) : Except CsvError Int :=
  if s ≠ "" then orConvError (pyIntOfString s) else Except.ok 0

/-- Models `convert_to_date` (its `strptime` call can raise). -/
def convert_to_date (s : String) : Except CsvError (Option PyDate) :=
  if s ≠ "" then orConvError ((pyStrptimeDate s).map some)
  else Except.ok none

/-- ASCII lowercasing of one character, as `str.lower` does it. -/
def lowerChar (c : Char) : Char :=
  if 'A' ≤ c ∧ c ≤ 'Z' then Char.ofNat (c.toNat + 32) else c

/-- Models `value.lower()` (ASCII; the accepted header labels and the
boolean literals contain nothing else). -/
def pyLower (s : String) : String := ⟨s.data.map lowerChar⟩

/-- Models `convert_to_bool`: `value.lower() == 'true'` when truthy. -/
def convert_to_bool (s : String) : Bool :=
  if s ≠ "" then pyLower s == "true" else false

/-- A required date cell: the source would happily store `None` in
`buy_date`, but such a `Lot` breaks every later date operation, so a
missing buy date is modelled as the conversion failing. -/
def requireDate : Option PyDate → Except CsvError PyDate
  | some d => Except.ok d
  | none => Except.error CsvError.conversionError

/-- One data row of `create_from_csv_data`: the per-field conversions, in
the order the source performs them, then `Lot(**row)`. -/
def parseLotRow (row : List String) : Except CsvError Lot := do
  let num_shares ← convert_to_int (parseCell row 0)
  let buy_dateOpt ← convert_to_date (parseCell row 3)
  let buy_date ← requireDate buy_dateOpt
  let basis ← convert_to_int (parseCell row 4)
  let sell_date ← convert_to_date (parseCell row 5)
  let proceeds ← convert_to_int (parseCell row 6)
  let adjustment ← convert_to_int (parseCell row 8)
  Except.ok {
    num_shares := num_shares
    symbol := parseCell row 1
    description := parseCell row 2
    buy_date := buy_date
    basis := basis
    sell_date := sell_date
    proceeds := proceeds
    adjustment_code := parseCell row 7
    adjustment := adjustment
    form_position := parseCell row 9
    buy_lot := parseCell row 10
    is_replacement := convert_to_bool (parseCell row 11) }

/-- Models `Lots.create_from_csv_data` on the rows `csv.DictReader`
yields: skip blank rows, require the first row to equal one of the two
accepted header label rows, convert every following row, and wrap the
result via `Lots.__init__`. -/
def Lots.create_from_csv_data (data : List (List String)) :
    Except CsvError Lots :=
  match data.filter (fun r => decide (r ≠ [])) with
  | [] => Except.error CsvError.stopIteration
  | header :: rest =>
    if header = Lots.HEADERS ∨ header = Lots.LEGACY_HEADERS then do
      let ls ← rest.mapM parseLotRow
      Except.ok (Lots.init ls)
    else Except.error CsvError.badHeaders

/-- Models `convert_from_int`: `str(value)` when truthy, else `''`. -/
def convert_from_int (n : Int) : String :=
  if n ≠ 0 then pyStrInt n else ""

/-- Models `convert_from_date`: `strftime('%m/%d/%Y')` when truthy (every
`date` is), else `''`. -/
def convert_from_date : Option PyDate → String
  | some d => formatDate d
  | none => ""

/-- Models `convert_from_bool`. -/
def convert_from_bool (b : Bool) : String := if b then "True" else "False"

/-- The row `write_csv_data` hands to `csv.DictWriter` for one lot, in
`Lot.FIELD_NAMES` order. -/
def lotToRow (lot : Lot) : List String :=
  [convert_from_int lot.num_shares,
   lot.symbol,
   lot.description,
   convert_from_date (some lot.buy_date),
   convert_from_int lot.basis,
   convert_from_date lot.sell_date,
   convert_from_int lot.proceeds,
   lot.adjustment_code,
   convert_from_int lot.adjustment,
   lot.form_position,
   lot.buy_lot,
   convert_from_bool lot.is_replacement]

/-- Models `Lots.write_csv_data`: the `HEADERS` row followed by one row
per lot in current collection order. -/
def Lots.write_csv_data (L : Lots) : List (List String) :=
  Lots.HEADERS :: L.lots.map lotToRow

/-! ### Spec-side comparator descriptions (written from the words of the
specification, for the refinement claims about the comparators) -/

/-- Three-way comparison of two natural numbers. -/
def cmpNat (x y : Nat) : Ordering :=
  if x < y then Ordering.lt else if x = y then Ordering.eq else Ordering.gt

/-- Dates ascending: by day ordinal. -/
def specCompareDate (x y : PyDate) : Ordering := cmpNat x.toOrdinal y.toOrdinal

/-- Spec: sell dates ascending, with an absent date sorting after any
present date and equal to itself. -/
def specCompareOptDate : Option PyDate → Option PyDate → Ordering
  | none, none => Ordering.eq
  | none, some _ => Ordering.gt
  | some _, none => Ordering.lt
  | some x, some y => specCompareDate x y

/-- Strings lexicographically ascending. -/
def specCompareStr (x y : String) : Ordering :=
  if x < y then Ordering.lt else if x = y then Ordering.eq else Ordering.gt

/-- Spec `byBuyDate`: buy date, then sell date (absent last), then form
position, else equal. -/
def specCmpByBuyDate (a b : Lot) : Ordering :=
  ((specCompareDate a.buy_date b.buy_date).then
    (specCompareOptDate a.sell_date b.sell_date)).then
    (specCompareStr a.form_position b.form_position)

/-- Spec `bySellDate`: sell date (absent last), then buy date, then form
position, else equal. -/
def specCmpBySellDate (a b : Lot) : Ordering :=
  ((specCompareOptDate a.sell_date b.sell_date).then
    (specCompareDate a.buy_date b.buy_date)).then
    (specCompareStr a.form_position b.form_position)

/-- The sign of a three-way comparison integer, as an `Ordering`. -/
def orderingOfInt (n : Int) : Ordering :=
  if n < 0 then Ordering.lt else if n = 0 then Ordering.eq else Ordering.gt

/-! ### Helper lemmas for the comparator claims -/

theorem then_of_ne_eq {o : Ordering} (h : o ≠ Ordering.eq) (x : Ordering) :
    o.then x = o := by
  cases o <;> simp_all [Ordering.then]

theorem eq_then (x : Ordering) : Ordering.eq.then x = x := rfl

theorem cmpNat_self (x : Nat) : cmpNat x x = Ordering.eq := by
  simp [cmpNat]

theorem cmpNat_ne_eq {x y : Nat} (h : x ≠ y) : cmpNat x y ≠ Ordering.eq := by
  unfold cmpNat
  rcases Nat.lt_or_ge x y with hlt | hge
  · rw [if_pos hlt]; simp
  · rw [if_neg (by omega), if_neg h]; simp

theorem specCompareOptDate_self (o : Option PyDate) :
    specCompareOptDate o o = Ordering.eq := by
  cases o with
  | none => rfl
  | some d => exact cmpNat_self d.toOrdinal

theorem orderingOfInt_sub (x y : Nat) : orderingOfInt ((x : Int) - y) = cmpNat x y := by
  unfold orderingOfInt cmpNat
  rcases lt_trichotomy x y with h | h | h
  · rw [if_pos (by omega), if_pos h]
  · subst h
    rw [if_neg (by omega), if_pos (by omega), if_neg (by omega), if_pos rfl]
  · rw [if_neg (by omega), if_neg (by omega), if_neg (by omega), if_neg (by omega)]

theorem sign_sub_antisymm (x y : Int) : (x - y).sign = -(y - x).sign := by
  have h : y - x = -(x - y) := by ring
  rw [h, Int.sign_neg, neg_neg]

theorem orderingOfInt_str (s t : String) :
    orderingOfInt (if s ≠ t then (if s < t then (-1 : Int) else 1) else 0) =
      specCompareStr s t := by
  by_cases h : s = t
  · subst h
    rw [if_neg (by simp)]
    unfold specCompareStr
    rw [if_neg (lt_irrefl s), if_pos rfl]
    rfl
  · rw [if_pos h]
    by_cases hlt : s < t
    · rw [if_pos hlt]
      unfold specCompareStr
      rw [if_pos hlt]
      rfl
    · rw [if_neg hlt]
      unfold specCompareStr
      rw [if_neg hlt, if_neg h]
      rfl

/-! ### Example lots (from the specification's test scenarios) -/

/-- Lot A of spec §8: buy 2014-09-15, sell 2014-10-05, form position "a". -/
def exLotA : Lot :=
  { num_shares := 10, symbol := "ABC", description := "A",
    buy_date := ⟨2014, 9, 15⟩, basis := 200000,
    sell_date := some ⟨2014, 10, 5⟩, proceeds := 180000,
    adjustment_code := "", adjustment := 0, form_position := "a",
    buy_lot := "lot1", is_replacement := false }

/-- Lot B of spec §8: same buy date, unsold, form position "b". -/
def exLotB : Lot :=
  { exLotA with
    sell_date := none
    proceeds := 0
    form_position := "b"
    buy_lot := "lotB" }

/-! ### C6: `is_loss` -/

/-- C6: `is_loss()` returns true iff the sell date is present and the
proceeds are less than the basis; an unsold lot is never a loss, and a
break-even sale is not a loss. -/
theorem claim_C6_is_loss (l : Lot) :
    (l.is_loss = true ↔ l.sell_date ≠ none ∧ l.proceeds < l.basis) ∧
    (l.sell_date = none → l.is_loss = false) ∧
    (l.proceeds = l.basis → l.is_loss = false) := by
  unfold Lot.is_loss
  refine ⟨⟨?_, ?_⟩, ?_, ?_⟩
  · intro h
    by_cases hc : l.sell_date.isSome ∧ l.proceeds < l.basis
    · exact ⟨Option.isSome_iff_ne_none.mp hc.1, hc.2⟩
    · rw [if_neg hc] at h
      exact absurd h (by simp)
  · intro ⟨h1, h2⟩
    rw [if_pos ⟨Option.isSome_iff_ne_none.mpr h1, h2⟩]
  · intro h
    rw [if_neg (fun hc => absurd h (Option.isSome_iff_ne_none.mp hc.1))]
  · intro h
    rw [if_neg (fun hc => absurd hc.2 (by rw [h]; exact lt_irrefl _))]

/-! ### C10: sign antisymmetry and reflexivity of the three comparators -/

theorem cmp_by_buy_date_antisymm (a b : Lot) :
    (Lot.cmp_by_buy_date a b).sign = -(Lot.cmp_by_buy_date b a).sign := by
  unfold Lot.cmp_by_buy_date
  by_cases h1 : a.buy_date = b.buy_date
  · have n1 : ¬ (a.buy_date ≠ b.buy_date) := by simp [h1]
    have n1' : ¬ (b.buy_date ≠ a.buy_date) := by simp [h1]
    rw [if_neg n1, if_neg n1']
    by_cases h2 : a.sell_date = b.sell_date
    · have n2 : ¬ (a.sell_date ≠ b.sell_date) := by simp [h2]
      have n2' : ¬ (b.sell_date ≠ a.sell_date) := by simp [h2]
      rw [if_neg n2, if_neg n2']
      by_cases h3 : a.form_position = b.form_position
      · have n3 : ¬ (a.form_position ≠ b.form_position) := by simp [h3]
        have n3' : ¬ (b.form_position ≠ a.form_position) := by simp [h3]
        rw [if_neg n3, if_neg n3']
        rfl
      · rw [if_pos h3, if_pos (Ne.symm h3)]
        rcases lt_trichotomy a.form_position b.form_position with hlt | heq | hgt
        · rw [if_pos hlt, if_neg (asymm hlt)]
          rfl
        · exact absurd heq h3
        · rw [if_neg (asymm hgt), if_pos hgt]
          rfl
    · rw [if_pos h2, if_pos (Ne.symm h2)]
      cases ha' : a.sell_date with
      | none =>
        cases hb' : b.sell_date with
        | none => exact absurd (ha'.trans hb'.symm) h2
        | some y => rfl
      | some x =>
        cases hb' : b.sell_date with
        | none => rfl
        | some y => exact sign_sub_antisymm _ _
  · rw [if_pos h1, if_pos (Ne.symm h1)]
    exact sign_sub_antisymm _ _

theorem cmp_by_sell_date_antisymm (a b : Lot) :
    (Lot.cmp_by_sell_date a b).sign = -(Lot.cmp_by_sell_date b a).sign := by
  unfold Lot.cmp_by_sell_date
  by_cases h2 : a.sell_date = b.sell_date
  · have n2 : ¬ (a.sell_date ≠ b.sell_date) := by simp [h2]
    have n2' : ¬ (b.sell_date ≠ a.sell_date) := by simp [h2]
    rw [if_neg n2, if_neg n2']
    by_cases h1 : a.buy_date = b.buy_date
    · have n1 : ¬ (a.buy_date ≠ b.buy_date) := by simp [h1]
      have n1' : ¬ (b.buy_date ≠ a.buy_date) := by simp [h1]
      rw [if_neg n1, if_neg n1']
      by_cases h3 : a.form_position = b.form_position
      · have n3 : ¬ (a.form_position ≠ b.form_position) := by simp [h3]
        have n3' : ¬ (b.form_position ≠ a.form_position) := by simp [h3]
        rw [if_neg n3, if_neg n3']
        rfl
      · rw [if_pos h3, if_pos (Ne.symm h3)]
        rcases lt_trichotomy a.form_position b.form_position with hlt | heq | hgt
        · rw [if_pos hlt, if_neg (asymm hlt)]
          rfl
        · exact absurd heq h3
        · rw [if_neg (asymm hgt), if_pos hgt]
          rfl
    · rw [if_pos h1, if_pos (Ne.symm h1)]
      exact sign_sub_antisymm _ _
  · rw [if_pos h2, if_pos (Ne.symm h2)]
    cases ha' : a.sell_date with
    | none =>
      cases hb' : b.sell_date with
      | none => exact absurd (ha'.trans hb'.symm) h2
      | some y => rfl
    | some x =>
      cases hb' : b.sell_date with
      | none => rfl
      | some y => exact sign_sub_antisymm _ _

theorem cmp_refl_zero (a : Lot) :
    Lot.cmp_by_buy_date a a = 0 ∧ Lot.cmp_by_sell_date a a = 0 ∧
      Lot.cmp_by_num_shares a a = 0 := by
  refine ⟨?_, ?_, ?_⟩
  · unfold Lot.cmp_by_buy_date
    rw [if_neg (by simp), if_neg (by simp), if_neg (by simp)]
  · unfold Lot.cmp_by_sell_date
    rw [if_neg (by simp), if_neg (by simp), if_neg (by simp)]
  · unfold Lot.cmp_by_num_shares
    omega

/-- C10: each comparator is antisymmetric in sign and zero on a pair of
identical lots. -/
theorem claim_C10_comparator_antisymmetry (a b : Lot) :
    (Lot.cmp_by_buy_date a b).sign = -(Lot.cmp_by_buy_date b a).sign ∧
    (Lot.cmp_by_sell_date a b).sign = -(Lot.cmp_by_sell_date b a).sign ∧
    (Lot.cmp_by_num_shares a b).sign = -(Lot.cmp_by_num_shares b a).sign ∧
    Lot.cmp_by_buy_date a a = 0 ∧ Lot.cmp_by_sell_date a a = 0 ∧
    Lot.cmp_by_num_shares a a = 0 := by
  obtain ⟨r1, r2, r3⟩ := cmp_refl_zero a
  exact ⟨cmp_by_buy_date_antisymm a b, cmp_by_sell_date_antisymm a b,
    sign_sub_antisymm _ _, r1, r2, r3⟩

/-! ### C2 and C3: the comparators refine the documented precedence -/

/-- C2: the sign of `cmp_by_buy_date` follows exactly the documented
precedence: buy date ascending by day difference, then sell date with
absent after present, then form position lexicographic, else zero.  The
validity hypotheses state that the dates are real `datetime.date` values. -/
theorem claim_C2_cmp_by_buy_date (a b : Lot)
    (ha : a.buy_date.valid) (hb : b.buy_date.valid)
    (hsa : ∀ d, a.sell_date = some d → d.valid)
    (hsb : ∀ d, b.sell_date = some d → d.valid) :
    orderingOfInt (Lot.cmp_by_buy_date a b) = specCmpByBuyDate a b := by
  unfold Lot.cmp_by_buy_date specCmpByBuyDate
  by_cases h1 : a.buy_date = b.buy_date
  · rw [if_neg (by simp [h1])]
    have e1 : specCompareDate a.buy_date b.buy_date = Ordering.eq := by
      unfold specCompareDate
      rw [h1]
      exact cmpNat_self _
    rw [e1, eq_then]
    by_cases h2 : a.sell_date = b.sell_date
    · rw [if_neg (by simp [h2])]
      have e2 : specCompareOptDate a.sell_date b.sell_date = Ordering.eq := by
        rw [h2]
        exact specCompareOptDate_self _
      rw [e2, eq_then]
      exact orderingOfInt_str _ _
    · rw [if_pos h2]
      cases ha' : a.sell_date with
      | none =>
        cases hb' : b.sell_date with
        | none => exact absurd (ha'.trans hb'.symm) h2
        | some y => rfl
      | some x =>
        cases hb' : b.sell_date with
        | none => rfl
        | some y =>
          have hx := hsa x ha'
          have hy := hsb y hb'
          have hxy : x ≠ y := by
            rintro rfl
            exact h2 (ha'.trans hb'.symm)
          have hord : x.toOrdinal ≠ y.toOrdinal :=
            fun hc => hxy (toOrdinal_inj hx hy hc)
          have e3 : orderingOfInt (dateSubDays x y) =
              cmpNat x.toOrdinal y.toOrdinal := orderingOfInt_sub _ _
          have e4 : specCompareOptDate (some x) (some y) =
              cmpNat x.toOrdinal y.toOrdinal := rfl
          rw [e3, e4, then_of_ne_eq (cmpNat_ne_eq hord)]
  · rw [if_pos h1]
    have hord : a.buy_date.toOrdinal ≠ b.buy_date.toOrdinal :=
      fun hc => h1 (toOrdinal_inj ha hb hc)
    have e3 : orderingOfInt (dateSubDays a.buy_date b.buy_date) =
        cmpNat a.buy_date.toOrdinal b.buy_date.toOrdinal := orderingOfInt_sub _ _
    have e4 : specCompareDate a.buy_date b.buy_date =
        cmpNat a.buy_date.toOrdinal b.buy_date.toOrdinal := rfl
    rw [e3, e4, then_of_ne_eq (cmpNat_ne_eq hord),
      then_of_ne_eq (cmpNat_ne_eq hord)]

/-- Witness for C2 at the spec's own example pair: Lot A sold, Lot B
unsold with the same buy date; `byBuyDate` orders A before B. -/
theorem claim_C2_witness :
    orderingOfInt (Lot.cmp_by_buy_date exLotA exLotB) = specCmpByBuyDate exLotA exLotB ∧
    Lot.cmp_by_buy_date exLotA exLotB < 0 :=
  ⟨claim_C2_cmp_by_buy_date exLotA exLotB (by decide) (by decide)
    (by intro d h; cases h; decide) (by intro d h; cases h),
   by decide⟩

/-- C3: the sign of `cmp_by_sell_date` follows exactly the documented
precedence: sell date ascending with absent after present, then buy date,
then form position, else zero. -/
theorem claim_C3_cmp_by_sell_date (a b : Lot)
    (ha : a.buy_date.valid) (hb : b.buy_date.valid)
    (hsa : ∀ d, a.sell_date = some d → d.valid)
    (hsb : ∀ d, b.sell_date = some d → d.valid) :
    orderingOfInt (Lot.cmp_by_sell_date a b) = specCmpBySellDate a b := by
  unfold Lot.cmp_by_sell_date specCmpBySellDate
  by_cases h2 : a.sell_date = b.sell_date
  · rw [if_neg (by simp [h2])]
    have e2 : specCompareOptDate a.sell_date b.sell_date = Ordering.eq := by
      rw [h2]
      exact specCompareOptDate_self _
    rw [e2, eq_then]
    by_cases h1 : a.buy_date = b.buy_date
    · rw [if_neg (by simp [h1])]
      have e1 : specCompareDate a.buy_date b.buy_date = Ordering.eq := by
        unfold specCompareDate
        rw [h1]
        exact cmpNat_self _
      rw [e1, eq_then]
      exact orderingOfInt_str _ _
    · rw [if_pos h1]
      have hord : a.buy_date.toOrdinal ≠ b.buy_date.toOrdinal :=
        fun hc => h1 (toOrdinal_inj ha hb hc)
      have e3 : orderingOfInt (dateSubDays a.buy_date b.buy_date) =
          cmpNat a.buy_date.toOrdinal b.buy_date.toOrdinal := orderingOfInt_sub _ _
      have e4 : specCompareDate a.buy_date b.buy_date =
          cmpNat a.buy_date.toOrdinal b.buy_date.toOrdinal := rfl
      rw [e3, e4, then_of_ne_eq (cmpNat_ne_eq hord)]
  · rw [if_pos h2]
    cases ha' : a.sell_date with
    | none =>
      cases hb' : b.sell_date with
      | none => exact absurd (ha'.trans hb'.symm) h2
      | some y => rfl
    | some x =>
      cases hb' : b.sell_date with
      | none => rfl
      | some y =>
        have hx := hsa x ha'
        have hy := hsb y hb'
        have hxy : x ≠ y := by
          rintro rfl
          exact h2 (ha'.trans hb'.symm)
        have hord : x.toOrdinal ≠ y.toOrdinal :=
          fun hc => hxy (toOrdinal_inj hx hy hc)
        have e3 : orderingOfInt (dateSubDays x y) =
            cmpNat x.toOrdinal y.toOrdinal := orderingOfInt_sub _ _
        have e4 : specCompareOptDate (some x) (some y) =
            cmpNat x.toOrdinal y.toOrdinal := rfl
        rw [e3, e4, then_of_ne_eq (cmpNat_ne_eq hord),
          then_of_ne_eq (cmpNat_ne_eq hord)]

/-- Lot C of spec §8: buy 2014-09-20, sell 2014-10-01. -/
def exLotC : Lot :=
  { exLotA with
    buy_date := ⟨2014, 9, 20⟩
    sell_date := some ⟨2014, 10, 1⟩
    form_position := "c"
    buy_lot := "lotC" }

/-- Witness for C3 at the spec's example: C (sold 10/01) before A (sold
10/05) under `bySellDate`. -/
theorem claim_C3_witness :
    orderingOfInt (Lot.cmp_by_sell_date exLotC exLotA) = specCmpBySellDate exLotC exLotA ∧
    Lot.cmp_by_sell_date exLotC exLotA < 0 :=
  ⟨claim_C3_cmp_by_sell_date exLotC exLotA (by decide) (by decide)
    (by intro d h; cases h; decide) (by intro d h; cases h; decide),
   by decide⟩

/-! ### C7: zip-based collection equality -/

theorem foldl_lot_eq_true (l : List (Lot × Lot))
    (h : ∀ p ∈ l, Lot.eq p.1 p.2 = true) :
    l.foldl (fun r p => r && Lot.eq p.1 p.2) true = true := by
  induction l with
  | nil => rfl
  | cons x xs ih =>
    have hx : Lot.eq x.1 x.2 = true := h x (by simp)
    simp only [List.foldl_cons, Bool.true_and, hx]
    exact ih (fun p hp => h p (by simp [hp]))

/-- C7: `Lots.__eq__` pairs lots positionally via `zip` and ignores the
trailing elements of the longer collection: once every positional pair in
the common prefix is equal, the collections compare equal, whatever their
lengths. -/
theorem claim_C7_zip_equality (a b : Lots)
    (h : ∀ p ∈ a.lots.zip b.lots, Lot.eq p.1 p.2 = true) :
    Lots.eq a b = true := by
  unfold Lots.eq
  exact foldl_lot_eq_true _ h

/-- Witness for C7 at collections of different lengths sharing their
one-element common prefix: sizes 1 and 2, yet `__eq__` returns true. -/
theorem claim_C7_witness :
    Lots.eq ⟨[exLotA]⟩ ⟨[exLotA, exLotB]⟩ = true ∧
    Lots.size ⟨[exLotA]⟩ ≠ Lots.size ⟨[exLotA, exLotB]⟩ :=
  ⟨claim_C7_zip_equality ⟨[exLotA]⟩ ⟨[exLotA, exLotB]⟩
    (by
      intro p hp
      have hp' : p = (exLotA, exLotA) := by simpa using hp
      subst hp'
      rfl),
   by decide⟩

/-! ### C5: header validation -/

theorem except_bind_ne {ε α β : Type} (bad : ε) (x : Except ε α)
    (f : α → Except ε β) (hx : x ≠ Except.error bad)
    (hf : ∀ a, f a ≠ Except.error bad) : (x >>= f) ≠ Except.error bad := by
  cases x with
  | error e =>
    have hne : e ≠ bad := fun hc => hx (by rw [hc])
    intro hc
    rw [show ((Except.error e : Except ε α) >>= f) =
        (Except.error e : Except ε β) from rfl] at hc
    injection hc with h
    exact hne h
  | ok a =>
    have ho : ((Except.ok a : Except ε α) >>= f) = f a := rfl
    rw [ho]
    exact hf a

theorem convert_to_int_ne_bad (s : String) :
    convert_to_int s ≠ Except.error CsvError.badHeaders := by
  unfold convert_to_int orConvError
  by_cases h : s ≠ ""
  · rw [if_pos h]
    cases pyIntOfString s <;> simp
  · rw [if_neg h]
    simp

theorem convert_to_date_ne_bad (s : String) :
    convert_to_date s ≠ Except.error CsvError.badHeaders := by
  unfold convert_to_date orConvError
  by_cases h : s ≠ ""
  · rw [if_pos h]
    cases (pyStrptimeDate s).map some <;> simp
  · rw [if_neg h]
    simp

theorem parseLotRow_ne_bad (row : List String) :
    parseLotRow row ≠ Except.error CsvError.badHeaders := by
  unfold parseLotRow
  apply except_bind_ne _ _ _ (convert_to_int_ne_bad _)
  intro ns
  apply except_bind_ne _ _ _ (convert_to_date_ne_bad _)
  intro bdo
  apply except_bind_ne
  · cases bdo <;> simp [requireDate]
  · intro bd
    apply except_bind_ne _ _ _ (convert_to_int_ne_bad _)
    intro basis
    apply except_bind_ne _ _ _ (convert_to_date_ne_bad _)
    intro sd
    apply except_bind_ne _ _ _ (convert_to_int_ne_bad _)
    intro proceeds
    apply except_bind_ne _ _ _ (convert_to_int_ne_bad _)
    intro adj
    simp

theorem mapM_parseLotRow_ne_bad (rows : List (List String)) :
    rows.mapM parseLotRow ≠ Except.error CsvError.badHeaders := by
  induction rows with
  | nil => exact fun hc => Except.noConfusion hc
  | cons r rows ih =>
    rw [List.mapM_cons]
    apply except_bind_ne _ _ _ (parseLotRow_ne_bad r)
    intro a
    apply except_bind_ne _ _ _ ih
    intro as
    exact fun hc => Except.noConfusion hc

/-- C5: an input whose first logical row matches neither accepted header
label set parses to `BadHeadersError` (and nothing else), whatever the
later rows hold; an input whose first logical row matches either set never
raises the header error. -/
theorem claim_C5_header_validation (data : List (List String))
    (header : List String) (rest : List (List String))
    (h : data.filter (fun r => decide (r ≠ [])) = header :: rest) :
    (¬ (header = Lots.HEADERS ∨ header = Lots.LEGACY_HEADERS) →
      Lots.create_from_csv_data data = Except.error CsvError.badHeaders) ∧
    ((header = Lots.HEADERS ∨ header = Lots.LEGACY_HEADERS) →
      Lots.create_from_csv_data data ≠ Except.error CsvError.badHeaders) := by
  have e : Lots.create_from_csv_data data =
      if header = Lots.HEADERS ∨ header = Lots.LEGACY_HEADERS then
        (do
          let ls ← rest.mapM parseLotRow
          Except.ok (Lots.init ls))
      else Except.error CsvError.badHeaders := by
    unfold Lots.create_from_csv_data
    rw [h]
  rw [e]
  constructor
  · intro hne
    rw [if_neg hne]
  · intro hyes
    rw [if_pos hyes]
    apply except_bind_ne _ _ _ (mapM_parseLotRow_ne_bad rest)
    intro ls
    exact fun hc => Except.noConfusion hc

/-- Witness for C5: the single-row header `["Bogus"]` matches neither
label set and parsing reports exactly the header error. -/
theorem claim_C5_witness :
    (¬ ((["Bogus"] : List String) = Lots.HEADERS ∨
        (["Bogus"] : List String) = Lots.LEGACY_HEADERS) →
      Lots.create_from_csv_data [["Bogus"]] = Except.error CsvError.badHeaders) ∧
    (((["Bogus"] : List String) = Lots.HEADERS ∨
        (["Bogus"] : List String) = Lots.LEGACY_HEADERS) →
      Lots.create_from_csv_data [["Bogus"]] ≠ Except.error CsvError.badHeaders) :=
  claim_C5_header_validation [["Bogus"]] ["Bogus"] [] (by decide)

/-! ### C9: the end-to-end scenario row -/

/-- The data row of the spec's end-to-end scenario, split at its commas. -/
def c9Row : List String :=
  ["10", "ABC", "A", "09/15/2014", "200000", "10/05/2014", "180000", "", "",
   "lot1", "", "False"]

/-- What that row actually parses to: `lot1` lands in `form_position`
(cell 10), the `buy_lot` cell (cell 11) is empty, so `Lots.__init__`
assigns the synthetic identifier `_1`. -/
def c9Lot : Lot :=
  { num_shares := 10, symbol := "ABC", description := "A",
    buy_date := ⟨2014, 9, 15⟩, basis := 200000,
    sell_date := some ⟨2014, 10, 5⟩, proceeds := 180000,
    adjustment_code := "", adjustment := 0, form_position := "lot1",
    buy_lot := "_1", is_replacement := false }

/-- Counterexample for C9 as stated: the parsed lot's `buy_lot` is the
synthetic `_1`, not `lot1` (which is its `form_position`). -/
theorem claim_C9_counterexample :
    Lots.create_from_csv_data [Lots.HEADERS, c9Row] = Except.ok ⟨[c9Lot]⟩ ∧
    c9Lot.buy_lot ≠ "lot1" :=
  ⟨by decide, by decide⟩

/-- C9 as amended: the scenario row parses into exactly one Lot with
`num_shares = 10`, `basis = 200000`, `is_loss() = true`, and
`form_position = "lot1"`; its `buy_lot` cell is empty, so the collection
assigns the synthetic identifier `_1`. -/
theorem claim_C9_end_to_end :
    Lots.create_from_csv_data [Lots.HEADERS, c9Row] = Except.ok ⟨[c9Lot]⟩ ∧
    c9Lot.num_shares = 10 ∧ c9Lot.basis = 200000 ∧ c9Lot.is_loss = true ∧
    c9Lot.form_position = "lot1" ∧ c9Lot.buy_lot = "_1" := by
  decide

/-! ### C4: synthetic buy-lot identifier assignment -/

theorem string_ext {s t : String} (h : s.data = t.data) : s = t := by
  cases s; cases t; cases h; rfl

theorem underscore_ne_empty (s : String) : ("_" ++ s : String) ≠ "" := by
  intro hc
  have h2 := congrArg String.data hc
  rw [String.data_append] at h2
  simp at h2

theorem underscore_head (s : String) : ("_" ++ s).data.head? = some '_' := by
  rw [String.data_append]; rfl

theorem underscore_inj {a b : String} (h : ("_" ++ a : String) = "_" ++ b) :
    a = b := by
  have h2 := congrArg String.data h
  rw [String.data_append, String.data_append] at h2
  simp at h2
  exact string_ext h2

theorem assignBuyLots_length (ls : List Lot) :
    ∀ k, (assignBuyLots k ls).length = ls.length := by
  induction ls with
  | nil => intro k; rfl
  | cons x xs ih =>
    intro k
    unfold assignBuyLots
    by_cases hx : x.buy_lot = ""
    · rw [if_pos hx]; simp [ih]
    · rw [if_neg hx]; simp [ih]

theorem assignBuyLots_all_ne (ls : List Lot) :
    ∀ k, ∀ l ∈ assignBuyLots k ls, l.buy_lot ≠ "" := by
  induction ls with
  | nil => intro k l hl; simp [assignBuyLots] at hl
  | cons x xs ih =>
    intro k l hl
    unfold assignBuyLots at hl
    by_cases hx : x.buy_lot = ""
    · rw [if_pos hx] at hl
      rcases List.mem_cons.mp hl with rfl | hl
      · exact underscore_ne_empty _
      · exact ih (k + 1) l hl
    · rw [if_neg hx] at hl
      rcases List.mem_cons.mp hl with rfl | hl
      · exact hx
      · exact ih k l hl

/-- How many lots before index `i` have an empty `buy_lot` (these are the
slots the synthetic counter consumed before reaching `i`). -/
def countEmptyBefore (ls : List Lot) (i : Nat) : Nat :=
  ((ls.take i).filter (fun l => decide (l.buy_lot = ""))).length

theorem countEmptyBefore_cons_pos {x : Lot} (hx : x.buy_lot = "")
    (xs : List Lot) (i : Nat) :
    countEmptyBefore (x :: xs) (i + 1) = countEmptyBefore xs i + 1 := by
  simp [countEmptyBefore, List.take_succ_cons, List.filter_cons, hx]

theorem countEmptyBefore_cons_neg {x : Lot} (hx : ¬ x.buy_lot = "")
    (xs : List Lot) (i : Nat) :
    countEmptyBefore (x :: xs) (i + 1) = countEmptyBefore xs i := by
  simp [countEmptyBefore, List.take_succ_cons, List.filter_cons, hx]

theorem assignBuyLots_getElem? (ls : List Lot) :
    ∀ (k i : Nat) (lot : Lot), ls[i]? = some lot →
      (assignBuyLots k ls)[i]? = some (
        if lot.buy_lot = "" then
          { lot with buy_lot := "_" ++ natStr (k + countEmptyBefore ls i) }
        else lot) := by
  induction ls with
  | nil => intro k i lot h; simp at h
  | cons x xs ih =>
    intro k i lot h
    cases i with
    | zero =>
      simp at h
      subst h
      unfold assignBuyLots
      by_cases hx : x.buy_lot = ""
      · rw [if_pos hx, if_pos hx]
        simp [countEmptyBefore]
      · rw [if_neg hx, if_neg hx]
        simp
    | succ i =>
      simp at h
      unfold assignBuyLots
      by_cases hx : x.buy_lot = ""
      · rw [if_pos hx]
        rw [List.getElem?_cons_succ]
        rw [ih (k + 1) i lot h]
        rw [countEmptyBefore_cons_pos hx]
        by_cases hl : lot.buy_lot = ""
        · rw [if_pos hl, if_pos hl]
          have e : k + (countEmptyBefore xs i + 1) =
              (k + 1) + countEmptyBefore xs i := by omega
          rw [e]
        · rw [if_neg hl, if_neg hl]
      · rw [if_neg hx]
        rw [List.getElem?_cons_succ]
        rw [ih k i lot h]
        rw [countEmptyBefore_cons_neg hx]

/-- C4: constructing a collection assigns `_1`, `_2`, ... exactly to the
lots whose `buy_lot` is empty, in input order (the identifier index is one
more than the number of empty-identifier lots occurring earlier); a lot
with a non-empty `buy_lot` is left untouched and consumes no slot; after
construction no lot's `buy_lot` is empty. -/
theorem claim_C4_synthetic_assignment (ls : List Lot) (i : Nat) (lot : Lot)
    (h : ls[i]? = some lot) :
    ((Lots.init ls).lots.length = ls.length) ∧
    (∀ l ∈ (Lots.init ls).lots, l.buy_lot ≠ "") ∧
    (lot.buy_lot = "" → (Lots.init ls).lots[i]? =
      some { lot with buy_lot := "_" ++ natStr (1 + countEmptyBefore ls i) }) ∧
    (lot.buy_lot ≠ "" → (Lots.init ls).lots[i]? = some lot) := by
  refine ⟨assignBuyLots_length ls 1, assignBuyLots_all_ne ls 1, ?_, ?_⟩
  · intro he
    have hg := assignBuyLots_getElem? ls 1 i lot h
    rw [if_pos he] at hg
    exact hg
  · intro hne
    have hg := assignBuyLots_getElem? ls 1 i lot h
    rw [if_neg hne] at hg
    exact hg

/-- Empty-identifier lots for the C4 witness. -/
def c4Empty1 : Lot := { exLotA with buy_lot := "" }

def c4Empty2 : Lot := { exLotC with buy_lot := "" }

/-- Witness for C4 at `[empty, pre-set, empty]`, index 2: the pre-set lot
consumed no slot, so the lot at index 2 receives `_2`. -/
theorem claim_C4_witness :
    ((Lots.init [c4Empty1, exLotB, c4Empty2]).lots.length =
      ([c4Empty1, exLotB, c4Empty2] : List Lot).length) ∧
    (∀ l ∈ (Lots.init [c4Empty1, exLotB, c4Empty2]).lots, l.buy_lot ≠ "") ∧
    (c4Empty2.buy_lot = "" → (Lots.init [c4Empty1, exLotB, c4Empty2]).lots[2]? =
      some { c4Empty2 with
        buy_lot := "_" ++ natStr (1 + countEmptyBefore [c4Empty1, exLotB, c4Empty2] 2) }) ∧
    (c4Empty2.buy_lot ≠ "" →
      (Lots.init [c4Empty1, exLotB, c4Empty2]).lots[2]? = some c4Empty2) :=
  claim_C4_synthetic_assignment [c4Empty1, exLotB, c4Empty2] 2 c4Empty2 (by decide)

/-! ### C8: uniqueness of buy-lot identifiers -/

theorem assignBuyLots_mem_buy_lot (ls : List Lot) :
    ∀ k s, s ∈ (assignBuyLots k ls).map Lot.buy_lot →
      (s ∈ (ls.map Lot.buy_lot).filter (fun t => decide (t ≠ "")) ∨
        ∃ j, k ≤ j ∧ s = "_" ++ natStr j) := by
  induction ls with
  | nil => intro k s hs; simp [assignBuyLots] at hs
  | cons x xs ih =>
    intro k s hs
    unfold assignBuyLots at hs
    by_cases hx : x.buy_lot = ""
    · rw [if_pos hx] at hs
      rw [List.map_cons, List.mem_cons] at hs
      rcases hs with rfl | hs
      · exact Or.inr ⟨k, le_rfl, rfl⟩
      · rcases ih (k + 1) s hs with hpre | ⟨j, hj, rfl⟩
        · left
          have hfil : (((x :: xs).map Lot.buy_lot).filter
                (fun t => decide (t ≠ ""))) =
              ((xs.map Lot.buy_lot).filter (fun t => decide (t ≠ ""))) := by
            simp [hx]
          rw [hfil]
          exact hpre
        · exact Or.inr ⟨j, by omega, rfl⟩
    · rw [if_neg hx] at hs
      rw [List.map_cons, List.mem_cons] at hs
      have hfil : (((x :: xs).map Lot.buy_lot).filter
            (fun t => decide (t ≠ ""))) =
          x.buy_lot :: ((xs.map Lot.buy_lot).filter (fun t => decide (t ≠ ""))) := by
        simp [hx]
      rcases hs with rfl | hs
      · left
        rw [hfil]
        exact List.mem_cons_self _ _
      · rcases ih k s hs with hpre | hsyn
        · left
          rw [hfil]
          exact List.mem_cons_of_mem _ hpre
        · exact Or.inr hsyn

theorem assignBuyLots_nodup (ls : List Lot) :
    ∀ k, ((ls.map Lot.buy_lot).filter (fun t => decide (t ≠ ""))).Nodup →
      (∀ lot ∈ ls, lot.buy_lot ≠ "" → lot.buy_lot.data.head? ≠ some '_') →
      ((assignBuyLots k ls).map Lot.buy_lot).Nodup := by
  induction ls with
  | nil => intro k _ _; simp [assignBuyLots]
  | cons x xs ih =>
    intro k hdist hhead
    unfold assignBuyLots
    by_cases hx : x.buy_lot = ""
    · rw [if_pos hx]
      rw [List.map_cons, List.nodup_cons]
      have hfil : (((x :: xs).map Lot.buy_lot).filter
            (fun t => decide (t ≠ ""))) =
          ((xs.map Lot.buy_lot).filter (fun t => decide (t ≠ ""))) := by
        simp [hx]
      constructor
      · intro hmem
        rcases assignBuyLots_mem_buy_lot xs (k + 1) _ hmem with hpre | ⟨j, hj, heq⟩
        · rw [List.mem_filter] at hpre
          obtain ⟨hmm, hne⟩ := hpre
          rw [List.mem_map] at hmm
          obtain ⟨lot, hlot, hbl⟩ := hmm
          have hs_ne : lot.buy_lot ≠ "" := by
            rw [hbl]
            exact underscore_ne_empty _
          apply hhead lot (List.mem_cons_of_mem _ hlot) hs_ne
          rw [hbl]
          exact underscore_head _
        · have heq' : ("_" ++ natStr k : String) = "_" ++ natStr j := heq
          have hkj := natStr_inj (underscore_inj heq')
          omega
      · apply ih (k + 1)
        · rw [hfil] at hdist
          exact hdist
        · intro lot hl
          exact hhead lot (List.mem_cons_of_mem _ hl)
    · rw [if_neg hx]
      rw [List.map_cons, List.nodup_cons]
      have hfil : (((x :: xs).map Lot.buy_lot).filter
            (fun t => decide (t ≠ ""))) =
          x.buy_lot :: ((xs.map Lot.buy_lot).filter (fun t => decide (t ≠ ""))) := by
        simp [hx]
      rw [hfil, List.nodup_cons] at hdist
      obtain ⟨hnotin, hdist'⟩ := hdist
      constructor
      · intro hmem
        rcases assignBuyLots_mem_buy_lot xs k _ hmem with hpre | ⟨j, hj, heq⟩
        · exact hnotin hpre
        · apply hhead x (List.mem_cons_self _ _) hx
          rw [heq]
          exact underscore_head _
      · exact ih k hdist' (fun lot hl => hhead lot (List.mem_cons_of_mem _ hl))

/-- Lots for the C8 counterexample: a pre-set identifier of the synthetic
form collides with the first synthetic assignment. -/
def c8PresetLot : Lot := { exLotA with buy_lot := "_1" }

def c8EmptyLot : Lot := { exLotB with buy_lot := "" }

/-- Counterexample for C8 as stated: constructing from a lot pre-set to
`_1` and a lot with an empty identifier yields two lots both named `_1` -
the collection does not enforce uniqueness. -/
theorem claim_C8_counterexample :
    ¬ (((Lots.init [c8PresetLot, c8EmptyLot]).lots.map Lot.buy_lot).Nodup) := by
  decide

/-- C8 as amended: construction guarantees non-empty identifiers but not
uniqueness in general; identifiers are pairwise distinct after
construction provided the pre-set ones are pairwise distinct and none of
them starts with the synthetic marker `'_'` (and `add` performs no check
at all, so nothing beyond construction is guaranteed). -/
theorem claim_C8_unique_buy_lots (ls : List Lot)
    (hdist : ((ls.map Lot.buy_lot).filter (fun t => decide (t ≠ ""))).Nodup)
    (hhead : ∀ lot ∈ ls, lot.buy_lot ≠ "" → lot.buy_lot.data.head? ≠ some '_') :
    ((Lots.init ls).lots.map Lot.buy_lot).Nodup :=
  assignBuyLots_nodup ls 1 hdist hhead

/-- Witness for C8's amended statement: a pre-set `lot1` plus an empty
identifier construct to the distinct identifiers `lot1`, `_1`. -/
theorem claim_C8_witness :
    (((Lots.init [exLotA, c8EmptyLot]).lots.map Lot.buy_lot).Nodup) :=
  claim_C8_unique_buy_lots [exLotA, c8EmptyLot] (by decide) (by decide)

/-! ### C1: write/parse round-trip -/

theorem ne_empty_of_data_ne_nil {s : String} (h : s.data ≠ []) : s ≠ "" :=
  fun hc => h (by rw [hc])

theorem pyStrInt_ne_empty {n : Int} (h : n ≠ 0) : pyStrInt n ≠ "" := by
  unfold pyStrInt
  by_cases hn : n < 0
  · rw [if_pos hn]
    apply ne_empty_of_data_ne_nil
    rw [String.data_append]
    simp
  · rw [if_neg hn]
    apply ne_empty_of_data_ne_nil
    exact natStr_ne_nil _

theorem convert_int_roundtrip (n : Int) :
    convert_to_int (convert_from_int n) = Except.ok n := by
  unfold convert_from_int convert_to_int orConvError
  rcases eq_or_ne n 0 with h | h
  · subst h
    have e1 : (if (0 : Int) ≠ 0 then pyStrInt 0 else "") = "" := by
      rw [if_neg (by simp)]
    rw [e1, if_neg (by simp)]
  · have e1 : (if n ≠ 0 then pyStrInt n else "") = pyStrInt n := if_pos h
    rw [e1, if_pos (pyStrInt_ne_empty h), pyInt_pyStr n h]

theorem formatDate_data (d : PyDate) :
    (formatDate d).data = (pad2 d.month).data ++ '/' ::
      ((pad2 d.day).data ++ '/' :: (pad4 d.year).data) := by
  unfold formatDate
  simp [String.data_append, List.append_assoc]

theorem formatDate_ne_empty (d : PyDate) : formatDate d ≠ "" := by
  apply ne_empty_of_data_ne_nil
  rw [formatDate_data]
  simp

theorem convert_date_roundtrip_some {d : PyDate} (h : d.valid) :
    convert_to_date (convert_from_date (some d)) = Except.ok (some d) := by
  have e : convert_from_date (some d) = formatDate d := rfl
  rw [e]
  unfold convert_to_date orConvError
  rw [if_pos (formatDate_ne_empty d), pyStrptime_formatDate h]
  rfl

theorem convert_date_roundtrip_none :
    convert_to_date (convert_from_date none) = Except.ok none := rfl

theorem convert_bool_roundtrip (b : Bool) :
    convert_to_bool (convert_from_bool b) = b := by
  cases b <;> rfl

theorem parseLotRow_lotToRow (lot : Lot) (hbd : lot.buy_date.valid)
    (hsd : ∀ d, lot.sell_date = some d → d.valid) :
    parseLotRow (lotToRow lot) =
      Except.ok { lot with loss_processed := false } := by
  have c0 : parseCell (lotToRow lot) 0 = convert_from_int lot.num_shares := rfl
  have c1 : parseCell (lotToRow lot) 1 = lot.symbol := rfl
  have c2 : parseCell (lotToRow lot) 2 = lot.description := rfl
  have c3 : parseCell (lotToRow lot) 3 = convert_from_date (some lot.buy_date) := rfl
  have c4 : parseCell (lotToRow lot) 4 = convert_from_int lot.basis := rfl
  have c5 : parseCell (lotToRow lot) 5 = convert_from_date lot.sell_date := rfl
  have c6 : parseCell (lotToRow lot) 6 = convert_from_int lot.proceeds := rfl
  have c7 : parseCell (lotToRow lot) 7 = lot.adjustment_code := rfl
  have c8 : parseCell (lotToRow lot) 8 = convert_from_int lot.adjustment := rfl
  have c9 : parseCell (lotToRow lot) 9 = lot.form_position := rfl
  have c10 : parseCell (lotToRow lot) 10 = lot.buy_lot := rfl
  have c11 : parseCell (lotToRow lot) 11 = convert_from_bool lot.is_replacement := rfl
  unfold parseLotRow
  rw [c0, c1, c2, c3, c4, c5, c6, c7, c8, c9, c10, c11]
  rw [convert_int_roundtrip, convert_int_roundtrip, convert_int_roundtrip,
    convert_int_roundtrip]
  rw [convert_date_roundtrip_some hbd]
  rw [convert_bool_roundtrip]
  cases hs : lot.sell_date with
  | none =>
    rw [convert_date_roundtrip_none]
    rfl
  | some d =>
    rw [convert_date_roundtrip_some (hsd d hs)]
    rfl

theorem mapM_lotToRow (ls : List Lot)
    (hbd : ∀ lot ∈ ls, lot.buy_date.valid)
    (hsd : ∀ lot ∈ ls, ∀ d, lot.sell_date = some d → d.valid) :
    (ls.map lotToRow).mapM parseLotRow =
      Except.ok (ls.map (fun lot => { lot with loss_processed := false })) := by
  induction ls with
  | nil => rfl
  | cons x xs ih =>
    rw [List.map_cons, List.mapM_cons,
      parseLotRow_lotToRow x (hbd x (by simp)) (hsd x (by simp)),
      ih (fun lot hl => hbd lot (by simp [hl]))
        (fun lot hl => hsd lot (by simp [hl]))]
    rfl

theorem write_filter (L : Lots) :
    (Lots.write_csv_data L).filter (fun r => decide (r ≠ [])) =
      Lots.write_csv_data L := by
  rw [List.filter_eq_self]
  intro r hr
  unfold Lots.write_csv_data at hr
  rcases List.mem_cons.mp hr with rfl | hr
  · decide
  · rw [List.mem_map] at hr
    obtain ⟨lot, _, rfl⟩ := hr
    simp [lotToRow]

theorem assignBuyLots_id (ls : List Lot) (h : ∀ l ∈ ls, l.buy_lot ≠ "") :
    ∀ k, assignBuyLots k ls = ls := by
  induction ls with
  | nil => intro k; rfl
  | cons x xs ih =>
    intro k
    unfold assignBuyLots
    rw [if_neg (h x (by simp))]
    rw [ih (fun l hl => h l (by simp [hl])) k]

theorem strip_eq (lot : Lot) :
    Lot.eq { lot with loss_processed := false } lot = true := by
  unfold Lot.eq
  simp

theorem zip_strip_all (ls : List Lot) :
    ∀ p ∈ ((ls.map (fun lot => { lot with loss_processed := false })).zip ls),
      Lot.eq p.1 p.2 = true := by
  induction ls with
  | nil => intro p hp; simp at hp
  | cons x xs ih =>
    intro p hp
    rw [List.map_cons, List.zip_cons_cons] at hp
    rcases List.mem_cons.mp hp with rfl | hp
    · exact strip_eq x
    · exact ih p hp

/-- C1: writing a collection whose lots all carry a non-empty `buy_lot`
and parsing the result back yields a collection equal to the original
under the collection's positional field-by-field equality (the parsed lots
differ from the originals only in the transient `loss_processed` flag,
which `__eq__` ignores).  The validity hypotheses state that the lots'
dates are real `datetime.date` values. -/
theorem claim_C1_roundtrip (L : Lots)
    (hbl : ∀ lot ∈ L.lots, lot.buy_lot ≠ "")
    (hbd : ∀ lot ∈ L.lots, lot.buy_date.valid)
    (hsd : ∀ lot ∈ L.lots, ∀ d, lot.sell_date = some d → d.valid) :
    ∃ L2, Lots.create_from_csv_data (Lots.write_csv_data L) = Except.ok L2 ∧
      Lots.eq L2 L = true := by
  have e : Lots.create_from_csv_data (Lots.write_csv_data L) =
      if Lots.HEADERS = Lots.HEADERS ∨ Lots.HEADERS = Lots.LEGACY_HEADERS then
        (do
          let ls ← (L.lots.map lotToRow).mapM parseLotRow
          Except.ok (Lots.init ls))
      else Except.error CsvError.badHeaders := by
    unfold Lots.create_from_csv_data
    rw [write_filter L]
    rfl
  rw [e, if_pos (Or.inl rfl), mapM_lotToRow L.lots hbd hsd]
  refine ⟨_, rfl, ?_⟩
  have hid : assignBuyLots 1
      (L.lots.map (fun lot => { lot with loss_processed := false })) =
      L.lots.map (fun lot => { lot with loss_processed := false }) := by
    apply assignBuyLots_id
    intro l hl
    rw [List.mem_map] at hl
    obtain ⟨lot, hlot, rfl⟩ := hl
    simpa using hbl lot hlot
  unfold Lots.init
  rw [hid]
  unfold Lots.eq
  exact foldl_lot_eq_true _ (zip_strip_all L.lots)

/-- Witness for C1 at the one-lot collection holding spec §8's Lot A
(`buy_lot = "lot1"` is non-empty). -/
theorem claim_C1_witness :
    ∃ L2, Lots.create_from_csv_data (Lots.write_csv_data ⟨[exLotA]⟩) =
        Except.ok L2 ∧ Lots.eq L2 ⟨[exLotA]⟩ = true :=
  claim_C1_roundtrip ⟨[exLotA]⟩ (by decide) (by decide)
    (by
      intro lot hl d hd
      simp at hl
      subst hl
      cases hd
      decide)

end WashSale
